import Mathlib

/-!
Shallow embedding of `mil_tools/mil_ros_tools/online_bagger/nodes/online_bagger.py`
(class `OnlineBagger`): a bounded-memory multi-channel recorder.  Per topic the
node keeps a deque of `(time_stamp, msg)` tuples, trims it to a configured
stream time after every ingest, and on a `/online_bagger/dump` service call
writes a requested trailing duration of every subscribed topic to a rosbag.

Modelling choices:
* timestamps and durations are rationals (`rospy.Time`/`Duration` arithmetic
  and `float` seconds are modelled exactly);
* a Python `deque` of tuples is a `List (ℚ × Msg)`, oldest first;
* `self.topic_messages` (a dict keyed by topic name) is an association list;
* operations that can raise (`IndexError` on `deque[-1]` of an empty deque,
  `ZeroDivisionError` in `requested_seconds / topic_duration`, `KeyError` on a
  missing dict key, `ValueError` from `list.index`) return `Option`/carry an
  `ok` flag: `none`/`ok = false` is the exception propagating;
* external effects (rosbag file, ROS master availability) are parameters: the
  bag is a list of performed writes, `sinkOpenFails` says whether
  `set_bag_directory` raises, `avail` says which topics the master can resolve.
-/

namespace OnlineBagger

/-- A ROS message: an opaque payload plus an optional embedded header stamp
(`msg.header.stamp` when the message `hasattr(msg, 'header')`). -/
structure Msg where
  headerStamp : Option ℚ
  payload : ℕ
deriving DecidableEq

/-- One entry of `self.subscriber_list`: `[topic_name, stream_time, subscribed]`. -/
structure TopicEntry where
  name : String
  streamTime : ℚ
  subscribed : Bool
deriving DecidableEq

/-- The value of `self.bag_report` (a status string in the Python source),
embedded as its constructor-shaped content. -/
inductive BagReport where
  /-- The attribute before any assignment to `self.bag_report`. -/
  | unset : BagReport
  /-- `'All messages were bagged'` (the `bag_time in (0, 0.0, None)` branch). -/
  | allBagged : BagReport
  /-- `'The requested %s seconds were bagged'`. -/
  | requestedBagged (requested : ℚ) : BagReport
  /-- `'Only %s seconds of the request %s seconds were available, all messages
  were bagged'`. -/
  | fewerAvailable (available requested : ℚ) : BagReport
deriving DecidableEq

/-- The content of the `self.bagger_status` string built by
`set_bagger_status`: `'Subscriber List: ' + str(self.subscriber_list) +
' Message Count: ' + str(self.get_total_message_count())`. -/
structure BaggerStatus where
  subscriberList : List TopicEntry
  messageCount : ℕ
deriving DecidableEq

/-- One performed `self.bag.write(topic, msgs[1], t=msgs[0])`. -/
structure SinkEntry where
  topic : String
  time : ℚ
  msg : Msg
deriving DecidableEq

/-- The mutable attributes of the `OnlineBagger` instance that the core logic
reads and writes (diagnostic-only counters other than `iteration_count` are
dropped). -/
structure BaggerState where
  subscriberList : List TopicEntry
  topicMessages : List (String × List (ℚ × Msg))
  streaming : Bool
  iterationCount : ℕ
  bagReport : BagReport
  baggerStatus : BaggerStatus
deriving DecidableEq

/-- Dict access `self.topic_messages[topic]`: first (unique, in the real dict)
binding for the key, `none` is a `KeyError`. -/
def lookupBuf (msgs : List (String × List (ℚ × Msg))) (topic : String) :
    Option (List (ℚ × Msg)) :=
  match msgs with
  | [] => Option.none
  | (k, b) :: rest => if k = topic then some b else lookupBuf rest topic

/-- Dict assignment `self.topic_messages[topic] = v` (key already present). -/
def updateBuf (msgs : List (String × List (ℚ × Msg))) (topic : String)
    (v : List (ℚ × Msg)) : List (String × List (ℚ × Msg)) :=
  match msgs with
  | [] => []
  | (k, b) :: rest =>
    if k = topic then (k, v) :: rest else (k, b) :: updateBuf rest topic v

/-- `get_header_time`: the embedded `msg.header.stamp` if the message has one,
otherwise `rospy.get_rostime()` (the arrival time, passed in as `now`). -/
def get_header_time (msg : Msg) (now : ℚ) : ℚ :=
  msg.headerStamp.getD now

/-- `get_topic_duration` on one topic's deque:
`deque[-1][0] - deque[0][0]`.  On an empty deque the `[-1]` indexing raises
`IndexError`, embedded as `none`. -/
def get_topic_duration (buf : List (ℚ × Msg)) : Option ℚ :=
  match buf.getLast?, buf.head? with
  | some lastE, some headE => some (lastE.1 - headE.1)
  | _, _ => Option.none

/-- `get_topic_message_count`: `len(self.topic_messages[topic])`. -/
def get_topic_message_count (buf : List (ℚ × Msg)) : ℕ :=
  buf.length

/-- Python `int()` applied to the (real-valued) product in `get_time_index`:
truncation toward zero. -/
def pyInt (q : ℚ) : ℤ :=
  if 0 ≤ q then ⌊q⌋ else ⌈q⌉

/-- `get_time_index(topic, requested_seconds)`: the slice start index for the
last `requested_seconds` of data, together with the value assigned to
`self.bag_report`.  `none` is the call raising: `IndexError` from
`get_topic_duration` on an empty deque, or `ZeroDivisionError` in
`ratio = requested_seconds / topic_duration` when the buffered duration is
zero (zero-duration or single-message deque). -/
def get_time_index (buf : List (ℚ × Msg)) (requested_seconds : ℚ) :
    Option (ℤ × BagReport) :=
  match get_topic_duration buf with
  | Option.none => Option.none
  | some topic_duration =>
    if topic_duration = 0 then Option.none
    else
      let ratio := requested_seconds / topic_duration
      let index := pyInt ((get_topic_message_count buf : ℚ) * (1 - min ratio 1))
      some (index,
        if index = 0 then BagReport.fewerAvailable topic_duration requested_seconds
        else BagReport.requestedBagged requested_seconds)

/-- The trimming loop at the end of `bagger_callback`:
`while time_diff > rospy.Duration(stream_time): popleft(); recompute`.
`none` is the `IndexError` raised when the recomputation runs on an emptied
deque (reachable only for a negative stream time). -/
def trimLoop (streamTime : ℚ) : List (ℚ × Msg) → Option (List (ℚ × Msg))
  | [] => Option.none
  | m :: ms =>
    match get_topic_duration (m :: ms) with
    | Option.none => Option.none
    | some d => if d > streamTime then trimLoop streamTime ms else some (m :: ms)

/-- The re-subscription pass `subscribe()`: every not-yet-subscribed topic whose
message class the master can resolve (`avail`) becomes subscribed. -/
def subscribe (avail : String → Bool) (l : List TopicEntry) : List TopicEntry :=
  l.map fun e =>
    if e.subscribed = false ∧ avail e.name = true then
      { e with subscribed := true }
    else e

/-- `bagger_callback(msg, topic)`.  The gate check `if not self.streaming:
return` comes first; then the message is appended with its effective timestamp,
the deque is trimmed to the topic's stream time, and `subscribe()` retries
failed topics.  `none` is an uncaught exception (`KeyError` for an unknown
dict key, `ValueError` from `self.topic_list.index(topic)`, `IndexError` from
the trim loop). -/
def bagger_callback (avail : String → Bool) (st : BaggerState) (msg : Msg)
    (topic : String) (now : ℚ) : Option BaggerState :=
  if st.streaming = false then some st
  else
    let iter := st.iterationCount + 1
    let time := get_header_time msg now
    match lookupBuf st.topicMessages topic with
    | Option.none => Option.none
    | some buf =>
      match st.subscriberList.find? (fun e => e.name == topic) with
      | Option.none => Option.none
      | some entry =>
        match trimLoop entry.streamTime (buf ++ [(time, msg)]) with
        | Option.none => Option.none
        | some buf2 =>
          some { st with
                 iterationCount := iter,
                 topicMessages := updateBuf st.topicMessages topic buf2,
                 subscriberList := subscribe avail st.subscriberList }

/-- `get_total_message_count`: sum of `len` over every topic's deque. -/
def get_total_message_count (msgs : List (String × List (ℚ × Msg))) : ℕ :=
  (msgs.map fun p => p.2.length).sum

/-- `set_bagger_status`: the status captures the subscriber list and the total
buffered message count at the moment it is called. -/
def set_bagger_status (st : BaggerState) : BaggerStatus :=
  ⟨st.subscriberList, get_total_message_count st.topicMessages⟩

/-- Result of one pass of the `for topic in self.subscriber_list` loop of
`start_bagging`, threading the dict of deques, the accumulated bag writes, the
current `self.bag_report`, and whether the loop completed without raising. -/
structure LoopOut where
  msgs : List (String × List (ℚ × Msg))
  sink : List SinkEntry
  report : BagReport
  ok : Bool
deriving DecidableEq

/-- The `bag_index` / `bag_report` determination for one subscribed topic in
`start_bagging`'s loop: `bag_index = 0` and
`self.bag_report = 'All messages were bagged'` when
`req.bag_time in (0, 0.0, None)`, else `get_time_index` (whose dict access
raises `KeyError` for an unknown topic, embedded as `none`). -/
def bagIndexFor (requested : ℚ) (msgs : List (String × List (ℚ × Msg)))
    (topic : String) : Option (ℤ × BagReport) :=
  if requested = 0 then some ((0 : ℤ), BagReport.allBagged)
  else
    match lookupBuf msgs topic with
    | Option.none => Option.none
    | some buf => get_time_index buf requested

/-- The per-topic export loop of `start_bagging`.  Unsubscribed topics
(`topic[2] == False`) are skipped.  A subscribed topic determines
`bag_index`/`bag_report` via `bagIndexFor`; then the slice
`deque[bag_index:]` is written to the bag and the deque is cleared.
`ok = false` is an exception aborting the loop (and the whole dump). -/
def bagLoop (requested : ℚ) (msgs : List (String × List (ℚ × Msg)))
    (report : BagReport) : List TopicEntry → LoopOut
  | [] => ⟨msgs, [], report, true⟩
  | e :: rest =>
    if e.subscribed = false then bagLoop requested msgs report rest
    else
      match bagIndexFor requested msgs e.name with
      | Option.none => ⟨msgs, [], report, false⟩
      | some (bagIndex, rep) =>
        match lookupBuf msgs e.name with
        | Option.none => ⟨msgs, [], rep, false⟩
        | some buf =>
          let writes := (buf.drop bagIndex.toNat).map fun p =>
            SinkEntry.mk e.name p.1 p.2
          let out := bagLoop requested (updateBuf msgs e.name []) rep rest
          ⟨out.msgs, writes ++ out.sink, out.report, out.ok⟩

/-- Outcome of a `start_bagging` service call: `ok` carries the state after a
completed dump, the bag writes and the returned status; `err` carries the
state and partial bag writes at the point an exception propagated out of the
handler. -/
inductive DumpResult where
  | ok (st : BaggerState) (sink : List SinkEntry) (status : BaggerStatus) : DumpResult
  | err (st : BaggerState) (sink : List SinkEntry) : DumpResult
deriving DecidableEq

/-- `start_bagging(req)`.  `sinkOpenFails` models `set_bag_directory` raising
(unwritable directory / `rosbag.Bag` open failure); `bag_name` only names the
external file and does not influence the modelled state.  Note the source has
no `try/finally`: `self.streaming = True` runs only when the whole body
completes. -/
def start_bagging (sinkOpenFails : Bool) (bag_name : String) (bag_time : ℚ)
    (st : BaggerState) : DumpResult :=
  let st1 : BaggerState := { st with streaming := false }
  if sinkOpenFails then DumpResult.err st1 []
  else
    let status := set_bagger_status st1
    let st2 : BaggerState := { st1 with baggerStatus := status }
    let out := bagLoop bag_time st2.topicMessages st2.bagReport st2.subscriberList
    let st3 : BaggerState := { st2 with topicMessages := out.msgs, bagReport := out.report }
    if out.ok then DumpResult.ok { st3 with streaming := true } out.sink status
    else DumpResult.err st3 out.sink

/-- The bagger state after the service call returned or raised. -/
def DumpResult.finalState : DumpResult → BaggerState
  | DumpResult.ok st _ _ => st
  | DumpResult.err st _ => st

/-- The bag writes a dump performed. -/
def DumpResult.sinkOf : DumpResult → List SinkEntry
  | DumpResult.ok _ sink _ => sink
  | DumpResult.err _ sink => sink

/-- The status returned by a completed dump (`none` when it raised). -/
def DumpResult.statusOf : DumpResult → Option BaggerStatus
  | DumpResult.ok _ _ status => some status
  | DumpResult.err _ _ => Option.none

/-! ## Concrete states used by counterexamples and witnesses -/

/-- A headerless message (its effective timestamp is the arrival time). -/
def mA : Msg := ⟨Option.none, 0⟩

/-- One subscribed topic `a` holding two messages, one second apart. -/
def stGood : BaggerState :=
  ⟨[⟨"a", 30, true⟩], [("a", [((0 : ℚ), mA), ((1 : ℚ), mA)])], true, 0,
   BagReport.unset, ⟨[], 0⟩⟩

/-- One subscribed topic `a` holding a single buffered message. -/
def stZero : BaggerState :=
  ⟨[⟨"a", 30, true⟩], [("a", [((3 : ℚ), mA)])], true, 0,
   BagReport.unset, ⟨[], 0⟩⟩

/-- One subscribed topic `a` holding four messages at one-second spacing. -/
def stC6 : BaggerState :=
  ⟨[⟨"a", 30, true⟩],
   [("a", [((0 : ℚ), mA), ((1 : ℚ), mA), ((2 : ℚ), mA), ((3 : ℚ), mA)])],
   true, 0, BagReport.unset, ⟨[], 0⟩⟩

/-- Topic `a` subscribed with one message; topic `b` never subscribed. -/
def stC8 : BaggerState :=
  ⟨[⟨"a", 30, true⟩, ⟨"b", 30, false⟩],
   [("a", [((0 : ℚ), mA)]), ("b", [])], true, 0, BagReport.unset, ⟨[], 0⟩⟩

/-- Two subscribed topics: `a` with four messages over six seconds, `b` with
two messages over ten seconds. -/
def stW : BaggerState :=
  ⟨[⟨"a", 30, true⟩, ⟨"b", 30, true⟩],
   [("a", [((0 : ℚ), mA), ((2 : ℚ), mA), ((4 : ℚ), mA), ((6 : ℚ), mA)]),
    ("b", [((0 : ℚ), mA), ((10 : ℚ), mA)])],
   true, 0, BagReport.unset, ⟨[], 0⟩⟩

/-! ## Claim C1 -/

/-- C1: the code sets `self.streaming = False` at the start of `start_bagging`
but restores `self.streaming = True` only on the fall-through path — there is
no `try/finally` — so the gate stays closed forever when the dump raises.
Conjuncts: (1) if opening the export sink raises, the handler ends with
`streaming = false`; (2) if the duration-to-offset computation raises
(here: a channel holding a single message, so `ZeroDivisionError`), the
handler ends with `streaming = false`; (3) only a dump that completes ends
with `streaming = true`. -/
theorem dump_leaves_gate_closed_on_failure :
    (start_bagging true "x" 5 stGood).finalState.streaming = false ∧
    (start_bagging false "x" 5 stZero).finalState.streaming = false ∧
    (start_bagging false "x" 5 stGood).finalState.streaming = true := by
  norm_num [start_bagging, bagLoop, bagIndexFor, set_bagger_status,
    get_total_message_count, lookupBuf, updateBuf, get_time_index,
    get_topic_duration, get_topic_message_count, pyInt, min_def, stGood,
    stZero, mA, DumpResult.finalState]

/-! ## Claim C2 -/

/-- C2 counterexample: a channel buffering exactly one message has total
duration `0`; requesting the trailing `5` seconds makes
`ratio = requested_seconds / topic_duration` raise `ZeroDivisionError`
(embedded as `none`) instead of being treated as `ratio = 1` with offset `0`
and the single message exported. -/
theorem zero_duration_resolver_raises_cex :
    get_time_index [((3 : ℚ), mA)] 5 = Option.none := by
  norm_num [get_time_index, get_topic_duration, mA]

/-- C2 amended: whenever the buffered total duration is zero — an empty
buffer (where `get_topic_duration` itself raises `IndexError`) or a buffer
whose first and last timestamps coincide (zero, one, or all-equal-timestamp
messages) — `get_time_index` raises for every requested duration; nothing is
exported for that channel because the whole dump aborts. -/
theorem zero_duration_resolver_raises (buf : List (ℚ × Msg)) (d : ℚ)
    (h : buf = [] ∨ get_topic_duration buf = some 0) :
    get_time_index buf d = Option.none := by
  rcases h with h | h
  · subst h; rfl
  · simp [get_time_index, h]

/-- C2 amended, witness: the single-message channel of the counterexample. -/
theorem zero_duration_resolver_raises_witness :
    get_topic_duration [((3 : ℚ), mA)] = some 0 ∧
    get_time_index [((3 : ℚ), mA)] 5 = Option.none :=
  ⟨by norm_num [get_topic_duration, mA],
   zero_duration_resolver_raises [((3 : ℚ), mA)] 5
     (Or.inr (by norm_num [get_topic_duration, mA]))⟩

/-! ## Claim C3 -/

/-- C3: `bagger_callback` checks `if not self.streaming: return` before any
other statement, so while the Ingestion Gate is closed the delivered message
is dropped: the state (every channel buffer included) is returned unchanged,
and in particular the message can appear neither in a buffer after the dump
completes nor in the exported sink. -/
theorem gate_closed_drops_message (avail : String → Bool) (st : BaggerState)
    (msg : Msg) (topic : String) (now : ℚ) (h : st.streaming = false) :
    bagger_callback avail st msg topic now = some st := by
  simp [bagger_callback, h]

/-- C3 witness: a closed gate drops a message even for a topic the bagger does
not know (the gate check precedes the dictionary access). -/
theorem gate_closed_drops_message_witness :
    ({ stGood with streaming := false } : BaggerState).streaming = false ∧
    bagger_callback (fun _ => false) { stGood with streaming := false } mA "t" 9
      = some { stGood with streaming := false } :=
  ⟨by decide, gate_closed_drops_message _ _ _ _ _ (by decide)⟩

/-! ## Claim C7 -/

/-- C7 counterexample: a channel with two buffered messages spanning `10`
seconds holds more history than the requested `6` seconds, yet the computed
index is `int(2 * (1 - 6/10)) = 0` and the code records the partial-export
note `'Only 10 seconds of the request 6 seconds were available...'`.  The
note is therefore not equivalent to "held less history than requested". -/
theorem fewer_note_despite_enough_history_cex :
    (6 : ℚ) < 10 ∧
    get_time_index [((0 : ℚ), mA), ((10 : ℚ), mA)] 6 =
      some (0, BagReport.fewerAvailable 10 6) := by
  constructor
  · norm_num
  · norm_num [get_time_index, get_topic_duration, get_topic_message_count,
      pyInt, min_def, mA]

/-- C7 amended: the partial-export note (naming the buffered duration actually
available) is recorded for a channel exactly when the computed offset is `0`;
when the offset is nonzero the report states that the requested seconds were
bagged.  Offset `0` does occur whenever the history is shorter than requested,
but — as the counterexample shows — it can also occur with sufficient
history, because the count-based interpolation truncates to `0`. -/
theorem report_note_iff_index_zero (buf : List (ℚ × Msg)) (d total : ℚ)
    (i : ℤ) (rep : BagReport) (hdur : get_topic_duration buf = some total)
    (h : get_time_index buf d = some (i, rep)) :
    (rep = BagReport.fewerAvailable total d ↔ i = 0) ∧
    (i ≠ 0 → rep = BagReport.requestedBagged d) := by
  simp only [get_time_index, hdur] at h
  by_cases htot : total = 0
  · simp [htot] at h
  · rw [if_neg htot] at h
    simp only [Option.some.injEq, Prod.mk.injEq] at h
    obtain ⟨hi, hrep⟩ := h
    by_cases hz : pyInt ((get_topic_message_count buf : ℚ) * (1 - min (d / total) 1)) = 0
    · rw [if_pos hz] at hrep
      rw [← hi, hz]
      exact ⟨⟨fun _ => rfl, fun _ => hrep.symm⟩, fun hne => absurd rfl hne⟩
    · rw [if_neg hz] at hrep
      rw [← hi]
      refine ⟨⟨fun hr => ?_, fun hzero => absurd hzero hz⟩, fun _ => hrep.symm⟩
      rw [← hrep] at hr
      cases hr

/-- C7 amended, witness: the two-message channel of the counterexample, where
the offset is `0` and the partial note is recorded. -/
theorem report_note_iff_index_zero_witness :
    get_topic_duration [((0 : ℚ), mA), ((10 : ℚ), mA)] = some 10 ∧
    get_time_index [((0 : ℚ), mA), ((10 : ℚ), mA)] 6 =
      some (0, BagReport.fewerAvailable 10 6) ∧
    ((BagReport.fewerAvailable (10 : ℚ) (6 : ℚ) = BagReport.fewerAvailable 10 6 ↔
        (0 : ℤ) = 0) ∧
      ((0 : ℤ) ≠ 0 → BagReport.fewerAvailable (10 : ℚ) (6 : ℚ) =
        BagReport.requestedBagged 6)) :=
  ⟨by norm_num [get_topic_duration, mA],
   by norm_num [get_time_index, get_topic_duration, get_topic_message_count,
     pyInt, min_def, mA],
   report_note_iff_index_zero [((0 : ℚ), mA), ((10 : ℚ), mA)] 6 10 0
     (BagReport.fewerAvailable 10 6)
     (by norm_num [get_topic_duration, mA])
     (by norm_num [get_time_index, get_topic_duration, get_topic_message_count,
       pyInt, min_def, mA])⟩

/-! ## Claim C9 -/

/-- C9 counterexample: on a single-entry buffer `deque[-1]` and `deque[0]` are
the same element, so `get_topic_duration` succeeds and returns `0` — it does
not fail for "fewer than 2 entries"; only the empty buffer raises. -/
theorem single_entry_duration_returns_zero_cex :
    get_topic_duration [((3 : ℚ), mA)] = some 0 := by
  norm_num [get_topic_duration, mA]

/-- C9 amended: `get_topic_duration` returns
`newest.timestamp − oldest.timestamp` for every non-empty buffer — for a
single-entry buffer that is `0`, not an error — and raises (`IndexError`,
embedded as `none`) only when the buffer is empty. -/
theorem duration_fails_only_when_empty (buf : List (ℚ × Msg))
    (h : buf ≠ []) :
    get_topic_duration buf = some ((buf.getLast h).1 - (buf.head h).1) ∧
    (∀ p : ℚ × Msg, buf = [p] → get_topic_duration buf = some 0) ∧
    get_topic_duration ([] : List (ℚ × Msg)) = Option.none := by
  refine ⟨?_, ?_, rfl⟩
  · rw [get_topic_duration, List.getLast?_eq_getLast_of_ne_nil h,
      List.head?_eq_head h]
  · rintro p rfl
    simp [get_topic_duration]

/-- C9 amended, witness: the single-entry buffer of the counterexample. -/
theorem duration_fails_only_when_empty_witness :
    ([((3 : ℚ), mA)] : List (ℚ × Msg)) ≠ [] ∧
    (get_topic_duration [((3 : ℚ), mA)] =
        some (((([((3 : ℚ), mA)] : List (ℚ × Msg)).getLast (by simp)).1) -
          ((([((3 : ℚ), mA)] : List (ℚ × Msg)).head (by simp)).1)) ∧
      (∀ p : ℚ × Msg, ([((3 : ℚ), mA)] : List (ℚ × Msg)) = [p] →
        get_topic_duration [((3 : ℚ), mA)] = some 0) ∧
      get_topic_duration ([] : List (ℚ × Msg)) = Option.none) :=
  ⟨by simp, duration_fails_only_when_empty [((3 : ℚ), mA)] (by simp)⟩

/-! ## Claim C4 -/

/-- Modelled from the spec (§4.2 Duration-to-Offset Resolver): the offset is
`floor(message_count * fraction_to_drop)` with `ratio = d / total` and
`fraction_to_drop = 1 − min(ratio, 1)`.  Stated separately from
`get_time_index` (which embeds the code's `int()` truncation) so that the two
can be compared. -/
def resolver_spec_offset (message_count : ℕ) (d total : ℚ) : ℤ :=
  ⌊(message_count : ℚ) * (1 - min (d / total) 1)⌋

/-- `int()` agrees with `floor` on non-negative values. -/
theorem pyInt_eq_floor {q : ℚ} (h : 0 ≤ q) : pyInt q = ⌊q⌋ :=
  if_pos h

/-- C4: for a channel with at least two buffered messages, positive total
duration `total` and positive requested duration `d`, `get_time_index`
returns exactly the spec's `floor(message_count * (1 − min(d / total, 1)))`
(the code's `int()` truncation agrees with `floor` because the truncated
value is never negative), and whenever `d ≥ total` that offset is `0`. -/
theorem resolver_matches_spec_formula (buf : List (ℚ × Msg)) (d total : ℚ)
    (hlen : 2 ≤ buf.length) (hdur : get_topic_duration buf = some total)
    (htot : 0 < total) (hd : 0 < d) :
    ∃ rep, get_time_index buf d =
        some (resolver_spec_offset buf.length d total, rep) ∧
      (total ≤ d → resolver_spec_offset buf.length d total = 0) := by
  have hfrac : (0 : ℚ) ≤ (get_topic_message_count buf : ℚ) * (1 - min (d / total) 1) := by
    refine mul_nonneg (Nat.cast_nonneg _) ?_
    have := min_le_right (d / total) (1 : ℚ)
    linarith
  have hpy : pyInt ((get_topic_message_count buf : ℚ) * (1 - min (d / total) 1))
      = resolver_spec_offset buf.length d total := by
    rw [pyInt_eq_floor hfrac]; rfl
  simp only [get_time_index, hdur, if_neg (ne_of_gt htot), hpy]
  refine ⟨_, rfl, fun hle => ?_⟩
  rw [resolver_spec_offset, min_eq_right ((one_le_div htot).mpr hle)]
  simp

/-- C4 witness: two messages spanning 2 seconds, requesting 5 seconds: the
offset is the spec formula's value, and since `total ≤ d` it is `0`. -/
theorem resolver_matches_spec_formula_witness :
    2 ≤ ([((0 : ℚ), mA), ((2 : ℚ), mA)] : List (ℚ × Msg)).length ∧
    get_topic_duration [((0 : ℚ), mA), ((2 : ℚ), mA)] = some 2 ∧
    (0 : ℚ) < 2 ∧ (0 : ℚ) < 5 ∧
    ∃ rep, get_time_index [((0 : ℚ), mA), ((2 : ℚ), mA)] 5 =
        some (resolver_spec_offset 2 5 2, rep) ∧
      ((2 : ℚ) ≤ 5 → resolver_spec_offset 2 5 2 = 0) :=
  ⟨by simp, by norm_num [get_topic_duration, mA], by norm_num, by norm_num,
   resolver_matches_spec_formula [((0 : ℚ), mA), ((2 : ℚ), mA)] 5 2
     (by simp) (by norm_num [get_topic_duration, mA]) (by norm_num) (by norm_num)⟩

/-! ## Claim C5 -/

/-- A non-empty deque has a well-defined duration. -/
theorem get_topic_duration_isSome {l : List (ℚ × Msg)} (h : l ≠ []) :
    ∃ d, get_topic_duration l = some d := by
  rw [get_topic_duration, List.getLast?_eq_getLast_of_ne_nil h,
    List.head?_eq_head h]
  exact ⟨_, rfl⟩

/-- C5: for every non-negative retention window `w` and every non-empty deque
(after an append the deque is always non-empty), the trimming loop of
`bagger_callback` terminates without raising and returns a deque that
(1) is still non-empty — trimming can go down to the single most recent
message but never empties the buffer, (2) is a suffix of the input — messages
are only popped from the oldest end, and (3) has buffered duration at most
`w` (in particular whenever at least 2 messages remain). -/
theorem trim_bounds_duration (w : ℚ) (hw : 0 ≤ w) :
    ∀ l : List (ℚ × Msg), l ≠ [] →
    ∃ r, trimLoop w l = some r ∧ r ≠ [] ∧ r.IsSuffix l ∧
      ∀ dd, get_topic_duration r = some dd → dd ≤ w := by
  intro l
  induction l with
  | nil => intro h; exact absurd rfl h
  | cons m ms ih =>
    intro _
    obtain ⟨d, hd⟩ := get_topic_duration_isSome (List.cons_ne_nil m ms)
    by_cases hgt : d > w
    · have hms : ms ≠ [] := by
        rintro rfl
        have hsing : get_topic_duration [m] = some 0 := by
          simp [get_topic_duration]
        rw [hsing] at hd
        have h0 : (0 : ℚ) = d := Option.some.inj hd
        rw [← h0] at hgt
        linarith
      obtain ⟨r, hr, hne, hsuf, hdur⟩ := ih hms
      refine ⟨r, ?_, hne, hsuf.trans (List.suffix_cons m ms), hdur⟩
      simp only [trimLoop, hd]
      rw [if_pos hgt]
      exact hr
    · refine ⟨m :: ms, ?_, List.cons_ne_nil m ms, List.suffix_refl _, ?_⟩
      · simp only [trimLoop, hd]
        rw [if_neg hgt]
      · intro dd hdd
        rw [hd] at hdd
        rw [← Option.some.inj hdd]
        exact le_of_not_lt hgt

/-- C5 witness: window 5, three messages at times 0, 1, 10: trimming pops the
two oldest and leaves the single most recent message. -/
theorem trim_bounds_duration_witness :
    (0 : ℚ) ≤ 5 ∧
    ([((0 : ℚ), mA), ((1 : ℚ), mA), ((10 : ℚ), mA)] : List (ℚ × Msg)) ≠ [] ∧
    ∃ r, trimLoop 5 [((0 : ℚ), mA), ((1 : ℚ), mA), ((10 : ℚ), mA)] = some r ∧
      r ≠ [] ∧
      r.IsSuffix [((0 : ℚ), mA), ((1 : ℚ), mA), ((10 : ℚ), mA)] ∧
      ∀ dd, get_topic_duration r = some dd → dd ≤ 5 :=
  ⟨by norm_num, by simp,
   trim_bounds_duration 5 (by norm_num) _ (by simp)⟩

/-! ## Dictionary and export-loop lemmas -/

/-- Updating a present key makes `lookupBuf` return the new value. -/
theorem lookupBuf_updateBuf_self (msgs : List (String × List (ℚ × Msg)))
    (nm : String) (v b : List (ℚ × Msg)) (h : lookupBuf msgs nm = some b) :
    lookupBuf (updateBuf msgs nm v) nm = some v := by
  induction msgs with
  | nil => simp [lookupBuf] at h
  | cons p rest ih =>
    obtain ⟨k, bb⟩ := p
    by_cases hk : k = nm
    · simp only [updateBuf]
      rw [if_pos hk]
      simp only [lookupBuf]
      rw [if_pos hk]
    · simp only [updateBuf]
      rw [if_neg hk]
      simp only [lookupBuf] at h ⊢
      rw [if_neg hk] at h ⊢
      exact ih h

/-- Updating one key leaves `lookupBuf` at any other key unchanged. -/
theorem lookupBuf_updateBuf_ne (msgs : List (String × List (ℚ × Msg)))
    (nm nm' : String) (v : List (ℚ × Msg)) (h : nm' ≠ nm) :
    lookupBuf (updateBuf msgs nm v) nm' = lookupBuf msgs nm' := by
  induction msgs with
  | nil => rfl
  | cons p rest ih =>
    obtain ⟨k, bb⟩ := p
    by_cases hk : k = nm
    · have hkn : ¬k = nm' := fun hc => h ((hc ▸ hk : nm' = nm))
      simp only [updateBuf]
      rw [if_pos hk]
      simp only [lookupBuf]
      rw [if_neg hkn, if_neg hkn]
    · simp only [updateBuf]
      rw [if_neg hk]
      simp only [lookupBuf]
      by_cases hk' : k = nm'
      · rw [if_pos hk', if_pos hk']
      · rw [if_neg hk', if_neg hk']
        exact ih

/-- Once a topic's deque is empty, the rest of the export loop keeps it
empty (later iterations clear other keys, or re-clear this one). -/
theorem bagLoop_preserves_empty (requested : ℚ) (nm : String) :
    ∀ (entries : List TopicEntry) (msgs : List (String × List (ℚ × Msg)))
      (report : BagReport),
      lookupBuf msgs nm = some [] →
      lookupBuf (bagLoop requested msgs report entries).msgs nm = some [] := by
  intro entries
  induction entries with
  | nil => intro msgs report h; simpa [bagLoop]
  | cons e rest ih =>
    intro msgs report h
    by_cases hsub : e.subscribed = false
    · simp only [bagLoop]
      rw [if_pos hsub]
      exact ih msgs report h
    · simp only [bagLoop]
      rw [if_neg hsub]
      rcases hoff : bagIndexFor requested msgs e.name with _ | ⟨bagIndex, rep⟩
      · simpa using h
      · rcases hbuf : lookupBuf msgs e.name with _ | buf
        · simpa using h
        · simp only []
          by_cases hnm : e.name = nm
          · refine ih _ rep ?_
            rw [← hnm]
            exact lookupBuf_updateBuf_self msgs e.name [] buf hbuf
          · refine ih _ rep ?_
            rw [lookupBuf_updateBuf_ne msgs e.name nm [] fun hc => hnm hc.symm]
            exact h

/-- A loop that completes without raising has cleared the deque of every
subscribed topic it visited. -/
theorem bagLoop_clears (requested : ℚ) :
    ∀ (entries : List TopicEntry) (msgs : List (String × List (ℚ × Msg)))
      (report : BagReport) (e : TopicEntry),
      (bagLoop requested msgs report entries).ok = true →
      e ∈ entries → e.subscribed = true →
      lookupBuf (bagLoop requested msgs report entries).msgs e.name = some [] := by
  intro entries
  induction entries with
  | nil => intro msgs report e hok hmem; simp at hmem
  | cons e' rest ih =>
    intro msgs report e hok hmem hesub
    by_cases hsub : e'.subscribed = false
    · simp only [bagLoop] at hok ⊢
      rw [if_pos hsub] at hok ⊢
      rcases List.mem_cons.mp hmem with rfl | hmem'
      · rw [hsub] at hesub; cases hesub
      · exact ih msgs report e hok hmem' hesub
    · simp only [bagLoop] at hok ⊢
      rw [if_neg hsub] at hok ⊢
      rcases hoff : bagIndexFor requested msgs e'.name with _ | ⟨bagIndex, rep⟩ <;>
        rw [hoff] at hok
      · simp at hok
      · rcases hbuf : lookupBuf msgs e'.name with _ | buf <;> rw [hbuf] at hok
        · simp at hok
        · simp only [] at hok
          rcases List.mem_cons.mp hmem with rfl | hmem'
          · exact bagLoop_preserves_empty requested e.name rest _ rep
              (lookupBuf_updateBuf_self msgs e.name [] buf hbuf)
          · exact ih _ rep e hok hmem' hesub

/-- If no subscribed entry of the remaining loop is named `nm`, the loop
writes nothing for topic `nm` to the bag. -/
theorem bagLoop_sink_avoid (requested : ℚ) (nm : String) :
    ∀ (entries : List TopicEntry) (msgs : List (String × List (ℚ × Msg)))
      (report : BagReport),
      (∀ e' ∈ entries, e'.subscribed = true → e'.name ≠ nm) →
      ∀ s ∈ (bagLoop requested msgs report entries).sink, s.topic ≠ nm := by
  intro entries
  induction entries with
  | nil => intro msgs report hno s hs; simp [bagLoop] at hs
  | cons e rest ih =>
    intro msgs report hno s hs
    by_cases hsub : e.subscribed = false
    · simp only [bagLoop] at hs
      rw [if_pos hsub] at hs
      exact ih msgs report (fun e' he' => hno e' (List.mem_cons_of_mem e he')) s hs
    · have hesub : e.subscribed = true := by
        revert hsub; cases e.subscribed <;> simp
      simp only [bagLoop] at hs
      rw [if_neg hsub] at hs
      rcases hoff : bagIndexFor requested msgs e.name with _ | ⟨bagIndex, rep⟩ <;>
        rw [hoff] at hs
      · simp at hs
      · rcases hbuf : lookupBuf msgs e.name with _ | buf <;> rw [hbuf] at hs
        · simp at hs
        · simp only [List.mem_append] at hs
          rcases hs with hs | hs
          · obtain ⟨p, hp, rfl⟩ := List.mem_map.mp hs
            exact hno e (List.mem_cons_self e rest) hesub
          · exact ih _ rep (fun e' he' => hno e' (List.mem_cons_of_mem e he')) s hs

/-- If no subscribed entry of the remaining loop is named `nm`, the loop
leaves topic `nm`'s deque untouched. -/
theorem bagLoop_preserves_lookup (requested : ℚ) (nm : String) :
    ∀ (entries : List TopicEntry) (msgs : List (String × List (ℚ × Msg)))
      (report : BagReport),
      (∀ e' ∈ entries, e'.subscribed = true → e'.name ≠ nm) →
      lookupBuf (bagLoop requested msgs report entries).msgs nm =
        lookupBuf msgs nm := by
  intro entries
  induction entries with
  | nil => intro msgs report hno; simp [bagLoop]
  | cons e rest ih =>
    intro msgs report hno
    by_cases hsub : e.subscribed = false
    · simp only [bagLoop]
      rw [if_pos hsub]
      exact ih msgs report fun e' he' => hno e' (List.mem_cons_of_mem e he')
    · have hesub : e.subscribed = true := by
        revert hsub; cases e.subscribed <;> simp
      simp only [bagLoop]
      rw [if_neg hsub]
      rcases hoff : bagIndexFor requested msgs e.name with _ | ⟨bagIndex, rep⟩
      · rfl
      · rcases hbuf : lookupBuf msgs e.name with _ | buf
        · rfl
        · simp only []
          rw [ih _ rep fun e' he' => hno e' (List.mem_cons_of_mem e he')]
          exact lookupBuf_updateBuf_ne msgs e.name nm [] fun hc =>
            hno e (List.mem_cons_self e rest) hesub hc.symm

/-- For an export loop that completes with a nonzero requested duration, the
bag writes for a subscribed channel `nm` (unique among subscribed names) are
exactly its buffered slice from the computed offset on — the messages before
the offset are never written. -/
theorem bagLoop_filter_sink (requested : ℚ) (nm : String)
    (hreq : requested ≠ 0) :
    ∀ (entries : List TopicEntry) (msgs : List (String × List (ℚ × Msg)))
      (report : BagReport) (buf : List (ℚ × Msg)) (i : ℤ) (r : BagReport),
      (bagLoop requested msgs report entries).ok = true →
      (∃ e ∈ entries, e.subscribed = true ∧ e.name = nm) →
      ((entries.filter fun x => x.subscribed).map fun x => x.name).Nodup →
      lookupBuf msgs nm = some buf →
      get_time_index buf requested = some (i, r) →
      (bagLoop requested msgs report entries).sink.filter
          (fun s => s.topic == nm) =
        (buf.drop i.toNat).map (fun p => SinkEntry.mk nm p.1 p.2) := by
  intro entries
  induction entries with
  | nil =>
    intro msgs report buf i r hok hex hnd hbuf hidx
    obtain ⟨e, he, -, -⟩ := hex
    simp at he
  | cons e rest ih =>
    intro msgs report buf i r hok hex hnd hbuf hidx
    by_cases hsub : e.subscribed = false
    · simp only [bagLoop] at hok ⊢
      rw [if_pos hsub] at hok ⊢
      have hex' : ∃ e0 ∈ rest, e0.subscribed = true ∧ e0.name = nm := by
        obtain ⟨e0, he0, hs0, hn0⟩ := hex
        rcases List.mem_cons.mp he0 with rfl | h0
        · rw [hsub] at hs0; cases hs0
        · exact ⟨e0, h0, hs0, hn0⟩
      have hnd' : ((rest.filter fun x => x.subscribed).map fun x => x.name).Nodup := by
        rwa [List.filter_cons_of_neg (by simpa using hsub)] at hnd
      exact ih msgs report buf i r hok hex' hnd' hbuf hidx
    · have hesub : e.subscribed = true := by
        revert hsub; cases e.subscribed <;> simp
      simp only [bagLoop] at hok ⊢
      rw [if_neg hsub] at hok ⊢
      rcases hoff : bagIndexFor requested msgs e.name with _ | ⟨bagIndex, rep⟩ <;>
        rw [hoff] at hok
      · simp at hok
      · rcases hbufE : lookupBuf msgs e.name with _ | bufE <;> rw [hbufE] at hok
        · simp at hok
        · simp only [] at hok ⊢
          have hnd0 := hnd
          rw [List.filter_cons_of_pos (by simpa using hesub)] at hnd0
          simp only [List.map_cons, List.nodup_cons] at hnd0
          obtain ⟨hnotmem, hndrest⟩ := hnd0
          by_cases hnm : e.name = nm
          · rw [hnm] at hbufE hoff
            rw [hbuf] at hbufE
            injection hbufE with hbufE'
            subst hbufE'
            simp only [bagIndexFor, if_neg hreq, hbuf] at hoff
            rw [hidx] at hoff
            injection hoff with hpair
            injection hpair with hi hr
            subst hi
            subst hr
            rw [hnm, List.filter_append]
            have h1 : List.filter (fun s => s.topic == nm)
                ((buf.drop i.toNat).map fun p => SinkEntry.mk nm p.1 p.2) =
                (buf.drop i.toNat).map fun p => SinkEntry.mk nm p.1 p.2 :=
              List.filter_eq_self.mpr (by
                intro a ha
                obtain ⟨p, hp, rfl⟩ := List.mem_map.mp ha
                exact beq_self_eq_true nm)
            have h2 : List.filter (fun s => s.topic == nm)
                (bagLoop requested (updateBuf msgs nm []) r rest).sink = [] :=
              List.filter_eq_nil_iff.mpr (by
                intro s hs
                have hne := bagLoop_sink_avoid requested nm rest
                  (updateBuf msgs nm []) r
                  (fun e' he' hs' hc => hnotmem (by
                    rw [hnm, ← hc]
                    exact List.mem_map_of_mem _ (List.mem_filter.mpr ⟨he', hs'⟩)))
                  s hs
                simpa using hne)
            rw [h1, h2, List.append_nil]
          · have hexr : ∃ e0 ∈ rest, e0.subscribed = true ∧ e0.name = nm := by
              obtain ⟨e0, he0, hs0, hn0⟩ := hex
              rcases List.mem_cons.mp he0 with rfl | h0
              · exact absurd hn0 hnm
              · exact ⟨e0, h0, hs0, hn0⟩
            have hbuf' : lookupBuf (updateBuf msgs e.name []) nm = some buf := by
              rw [lookupBuf_updateBuf_ne msgs e.name nm [] fun hc => hnm hc.symm]
              exact hbuf
            rw [List.filter_append]
            have h1 : List.filter (fun s => s.topic == nm)
                ((bufE.drop bagIndex.toNat).map fun p => SinkEntry.mk e.name p.1 p.2) =
                [] :=
              List.filter_eq_nil_iff.mpr (by
                intro a ha
                obtain ⟨p, hp, rfl⟩ := List.mem_map.mp ha
                simpa using hnm)
            rw [h1, List.nil_append]
            exact ih _ rep buf i r hok hexr hndrest hbuf' hidx

/-! ## Claim C6 -/

/-- C6 counterexample: dumping the last 1 second of a channel holding 4
messages over 3 seconds exports only 2 messages (offset 2), but the returned
status reports `Message Count: 4` — the total buffered at dump start, not the
count exported; and the returned status carries no duration note at all
(`self.bag_report` is only logged, never concatenated into
`self.bagger_status`). -/
theorem status_count_not_exported_cex :
    (start_bagging false "n" 1 stC6).statusOf = some ⟨[⟨"a", 30, true⟩], 4⟩ ∧
    ((start_bagging false "n" 1 stC6).sinkOf).length = 2 ∧
    (4 : ℕ) ≠ 2 := by
  refine ⟨?_, ?_, by norm_num⟩ <;>
    norm_num [start_bagging, bagLoop, bagIndexFor, set_bagger_status,
      get_total_message_count, lookupBuf, updateBuf, get_time_index,
      get_topic_duration, get_topic_message_count, pyInt, min_def, stC6, mA,
      DumpResult.statusOf, DumpResult.sinkOf] <;> simp

/-- C6 amended: the status summary returned by a completed dump consists of
the per-channel subscription states and the total message count buffered at
the start of the dump (which equals the exported count only when every
buffered message is exported); the duration note of step 3 is not part of the
returned summary. -/
theorem dump_status_content (bag_name : String) (bag_time : ℚ)
    (st st' : BaggerState) (sink : List SinkEntry) (status : BaggerStatus)
    (h : start_bagging false bag_name bag_time st = DumpResult.ok st' sink status) :
    status.subscriberList = st.subscriberList ∧
    status.messageCount = get_total_message_count st.topicMessages := by
  simp only [start_bagging] at h
  rw [if_neg (by simp : ¬(false = true))] at h
  split at h
  · injection h with h1 h2 h3
    rw [← h3]
    simp [set_bagger_status]
  · cases h

/-- C6 amended, witness: the dump of the counterexample, whose status is the
subscriber list with the buffered count 4. -/
theorem dump_status_content_witness :
    start_bagging false "n" 1 stC6 =
      DumpResult.ok
        ⟨[⟨"a", 30, true⟩], [("a", [])], true, 0, BagReport.requestedBagged 1,
          ⟨[⟨"a", 30, true⟩], 4⟩⟩
        [⟨"a", 2, mA⟩, ⟨"a", 3, mA⟩]
        ⟨[⟨"a", 30, true⟩], 4⟩ ∧
    ((⟨[⟨"a", 30, true⟩], 4⟩ : BaggerStatus).subscriberList =
        stC6.subscriberList ∧
      (⟨[⟨"a", 30, true⟩], 4⟩ : BaggerStatus).messageCount =
        get_total_message_count stC6.topicMessages) :=
  ⟨by norm_num [start_bagging, bagLoop, bagIndexFor, set_bagger_status,
      get_total_message_count, lookupBuf, updateBuf, get_time_index,
      get_topic_duration, get_topic_message_count, pyInt, min_def, stC6, mA] <;>
      simp,
   dump_status_content "n" 1 stC6
     ⟨[⟨"a", 30, true⟩], [("a", [])], true, 0, BagReport.requestedBagged 1,
       ⟨[⟨"a", 30, true⟩], 4⟩⟩
     [⟨"a", 2, mA⟩, ⟨"a", 3, mA⟩]
     ⟨[⟨"a", 30, true⟩], 4⟩
     (by norm_num [start_bagging, bagLoop, bagIndexFor, set_bagger_status,
       get_total_message_count, lookupBuf, updateBuf, get_time_index,
       get_topic_duration, get_topic_message_count, pyInt, min_def, stC6, mA] <;>
       simp)⟩

/-! ## Claim C8 -/

/-- C8 counterexample: dumping with topic `b` never subscribed returns a
status whose subscriber list still contains `b` (with its `False` flag) —
`set_bagger_status` stringifies the whole `self.subscriber_list` — so the
response does not exclude never-subscribed channels. -/
theorem response_includes_unsubscribed_cex :
    (start_bagging false "x" 0 stC8).statusOf =
      some ⟨[⟨"a", 30, true⟩, ⟨"b", 30, false⟩], 1⟩ ∧
    (⟨"b", 30, false⟩ : TopicEntry) ∈
      ((start_bagging false "x" 0 stC8).statusOf.getD ⟨[], 0⟩).subscriberList := by
  constructor <;>
    norm_num [start_bagging, bagLoop, bagIndexFor, set_bagger_status,
      get_total_message_count, lookupBuf, updateBuf, get_time_index,
      get_topic_duration, get_topic_message_count, pyInt, min_def, stC8, mA,
      DumpResult.statusOf, (by simp : ¬(("a" : String) = "b")),
      (by simp : ¬(("b" : String) = "a"))]

/-- C8 amended: a never-subscribed channel is skipped by the export loop — no
offset is computed for it, nothing is written to the sink under its name
(granted no subscribed channel shares that name), its deque is left
untouched, and it causes no failure — but the returned status does not
exclude it: the channel still appears, with its subscription state, in the
reported subscriber list. -/
theorem unsubscribed_channel_skipped (bag_name : String) (bag_time : ℚ)
    (st st' : BaggerState) (sink : List SinkEntry) (status : BaggerStatus)
    (e : TopicEntry)
    (h : start_bagging false bag_name bag_time st = DumpResult.ok st' sink status)
    (hmem : e ∈ st.subscriberList) (hsub : e.subscribed = false)
    (hdistinct : ∀ e' ∈ st.subscriberList, e'.subscribed = true → e'.name ≠ e.name) :
    (∀ s ∈ sink, s.topic ≠ e.name) ∧
    lookupBuf st'.topicMessages e.name = lookupBuf st.topicMessages e.name ∧
    e ∈ status.subscriberList := by
  simp only [start_bagging] at h
  rw [if_neg (by simp : ¬(false = true))] at h
  split at h
  · injection h with h1 h2 h3
    refine ⟨?_, ?_, ?_⟩
    · rw [← h2]
      exact bagLoop_sink_avoid bag_time e.name st.subscriberList
        st.topicMessages st.bagReport hdistinct
    · rw [← h1]
      simpa using bagLoop_preserves_lookup bag_time e.name st.subscriberList
        st.topicMessages st.bagReport hdistinct
    · rw [← h3]
      simpa [set_bagger_status] using hmem
  · cases h

/-- C8 amended, witness: the dump of the counterexample — nothing in the sink
is for `b`, `b`'s deque is untouched, and `b` still appears in the status. -/
theorem unsubscribed_channel_skipped_witness :
    start_bagging false "x" 0 stC8 =
      DumpResult.ok
        ⟨[⟨"a", 30, true⟩, ⟨"b", 30, false⟩], [("a", []), ("b", [])], true, 0,
          BagReport.allBagged, ⟨[⟨"a", 30, true⟩, ⟨"b", 30, false⟩], 1⟩⟩
        [⟨"a", 0, mA⟩]
        ⟨[⟨"a", 30, true⟩, ⟨"b", 30, false⟩], 1⟩ ∧
    ((∀ s ∈ ([⟨"a", 0, mA⟩] : List SinkEntry), s.topic ≠ "b") ∧
      lookupBuf [("a", []), ("b", [])] "b" =
        lookupBuf stC8.topicMessages "b" ∧
      (⟨"b", 30, false⟩ : TopicEntry) ∈
        ([⟨"a", 30, true⟩, ⟨"b", 30, false⟩] : List TopicEntry)) :=
  ⟨by norm_num [start_bagging, bagLoop, bagIndexFor, set_bagger_status,
      get_total_message_count, lookupBuf, updateBuf, get_time_index,
      get_topic_duration, get_topic_message_count, pyInt, min_def, stC8, mA,
      (by simp : ¬(("a" : String) = "b")), (by simp : ¬(("b" : String) = "a"))],
   unsubscribed_channel_skipped "x" 0 stC8
     ⟨[⟨"a", 30, true⟩, ⟨"b", 30, false⟩], [("a", []), ("b", [])], true, 0,
       BagReport.allBagged, ⟨[⟨"a", 30, true⟩, ⟨"b", 30, false⟩], 1⟩⟩
     [⟨"a", 0, mA⟩]
     ⟨[⟨"a", 30, true⟩, ⟨"b", 30, false⟩], 1⟩
     ⟨"b", 30, false⟩
     (by norm_num [start_bagging, bagLoop, bagIndexFor, set_bagger_status,
       get_total_message_count, lookupBuf, updateBuf, get_time_index,
       get_topic_duration, get_topic_message_count, pyInt, min_def, stC8, mA,
       (by simp : ¬(("a" : String) = "b")),
       (by simp : ¬(("b" : String) = "a"))])
     (by simp [stC8]) rfl
     (by simp [stC8])⟩

/-! ## Claim C10 -/

/-- C10: after a completed dump with a nonzero requested duration, every
subscribed channel's deque is entirely empty (`clear()` removes the whole
deque, not just the exported slice), and the sink received exactly the slice
`deque[bag_index:]` of that channel — the messages at indices
`[0, bag_index)` were discarded without ever being written.  The subscribed
channel names are assumed pairwise distinct (they are keys of one dict in the
source). -/
theorem dump_clears_all_including_pre_offset (bag_name : String)
    (bag_time : ℚ) (st st' : BaggerState) (sink : List SinkEntry)
    (status : BaggerStatus) (e : TopicEntry)
    (h : start_bagging false bag_name bag_time st = DumpResult.ok st' sink status)
    (hreq : bag_time ≠ 0)
    (hnodup : ((st.subscriberList.filter fun x => x.subscribed).map
      fun x => x.name).Nodup)
    (hmem : e ∈ st.subscriberList) (hsub : e.subscribed = true) :
    lookupBuf st'.topicMessages e.name = some [] ∧
    ∀ (buf : List (ℚ × Msg)) (i : ℤ) (rep : BagReport),
      lookupBuf st.topicMessages e.name = some buf →
      get_time_index buf bag_time = some (i, rep) →
      sink.filter (fun s => s.topic == e.name) =
        (buf.drop i.toNat).map fun p => SinkEntry.mk e.name p.1 p.2 := by
  simp only [start_bagging] at h
  rw [if_neg (by simp : ¬(false = true))] at h
  split at h
  next hok =>
    injection h with h1 h2 h3
    constructor
    · rw [← h1]
      simpa using bagLoop_clears bag_time st.subscriberList st.topicMessages
        st.bagReport e (by simpa using hok) hmem hsub
    · intro buf i rep hbuf hidx
      rw [← h2]
      simpa using bagLoop_filter_sink bag_time e.name hreq st.subscriberList
        st.topicMessages st.bagReport buf i rep (by simpa using hok)
        ⟨e, hmem, hsub, rfl⟩ hnodup hbuf hidx
  next => cases h

/-- C10 witness: dumping the last 3 seconds of two subscribed channels: both
deques end empty, and the sink entries for channel `a` are exactly its slice
from offset 2 on (the two pre-offset messages were never written). -/
theorem dump_clears_all_including_pre_offset_witness :
    start_bagging false "n" 3 stW =
      DumpResult.ok
        ⟨[⟨"a", 30, true⟩, ⟨"b", 30, true⟩], [("a", []), ("b", [])], true, 0,
          BagReport.requestedBagged 3,
          ⟨[⟨"a", 30, true⟩, ⟨"b", 30, true⟩], 6⟩⟩
        [⟨"a", 4, mA⟩, ⟨"a", 6, mA⟩, ⟨"b", 10, mA⟩]
        ⟨[⟨"a", 30, true⟩, ⟨"b", 30, true⟩], 6⟩ ∧
    (lookupBuf [("a", []), ("b", [])] "a" = some [] ∧
      ∀ (buf : List (ℚ × Msg)) (i : ℤ) (rep : BagReport),
        lookupBuf stW.topicMessages "a" = some buf →
        get_time_index buf 3 = some (i, rep) →
        ([⟨"a", 4, mA⟩, ⟨"a", 6, mA⟩, ⟨"b", 10, mA⟩] : List SinkEntry).filter
            (fun s => s.topic == "a") =
          (buf.drop i.toNat).map fun p => SinkEntry.mk "a" p.1 p.2) :=
  ⟨by norm_num [start_bagging, bagLoop, bagIndexFor, set_bagger_status,
      get_total_message_count, lookupBuf, updateBuf, get_time_index,
      get_topic_duration, get_topic_message_count, pyInt, min_def, stW, mA,
      (by simp : ¬(("a" : String) = "b")),
      (by simp : ¬(("b" : String) = "a"))] <;> simp,
   dump_clears_all_including_pre_offset "n" 3 stW
     ⟨[⟨"a", 30, true⟩, ⟨"b", 30, true⟩], [("a", []), ("b", [])], true, 0,
       BagReport.requestedBagged 3, ⟨[⟨"a", 30, true⟩, ⟨"b", 30, true⟩], 6⟩⟩
     [⟨"a", 4, mA⟩, ⟨"a", 6, mA⟩, ⟨"b", 10, mA⟩]
     ⟨[⟨"a", 30, true⟩, ⟨"b", 30, true⟩], 6⟩
     ⟨"a", 30, true⟩
     (by norm_num [start_bagging, bagLoop, bagIndexFor, set_bagger_status,
       get_total_message_count, lookupBuf, updateBuf, get_time_index,
       get_topic_duration, get_topic_message_count, pyInt, min_def, stW, mA,
       (by simp : ¬(("a" : String) = "b")),
       (by simp : ¬(("b" : String) = "a"))] <;> simp)
     (by norm_num) (by simp [stW]) (by simp [stW]) rfl⟩

end OnlineBagger
